import Mathlib

/-!
Shallow embedding of the KAITO model-preset generator (package `generator`):
the file classifier, the defensive integer accessor over the parsed
configuration document, the attention / KV-cache analyzer, the size and
storage calculator, the tool-call parser selector, the fetch status handling,
and the `GeneratePreset` pipeline.  Machine integers are modelled as `ℤ`
(overflow does not occur in the modelled ranges except where noted), Go
float64 values carry their exact rational value, and the exact integer
arithmetic stands for the float64 arithmetic of the source, which is exact on
every reachable input below 2^53.
-/

/-- JSON-like dynamic value as produced by Go's `encoding/json` into a
`map[string]interface{}`.  `jnum q` carries the exact rational value of the
decoded `float64` (every finite double is a rational); `jint` covers values of
Go static type `int`, which the accessor also handles; `jother` stands for any
remaining dynamic value (array, object, nil), none of which the embedded code
inspects beyond skipping it. -/
inductive JValue : Type
  | jnum (q : ℚ)
  | jint (n : ℤ)
  | jstr (s : String)
  | jbool (b : Bool)
  | jother
deriving DecidableEq

/-- A parsed configuration document: a Go `map[string]interface{}` with unique
keys, modelled as an association list (`List.lookup` returns the first
binding). -/
abbrev Config := List (String × JValue)

/-- Numeric value of a decimal digit character. -/
def digitVal (c : Char) : ℕ := c.toNat - 48

/-- Value of a list of decimal digits, most significant digit first. -/
def digitsVal (l : List Char) : ℕ := l.foldl (fun a c => 10 * a + digitVal c) 0

/-- Go `strconv.Atoi`: an optional single sign, then one or more ASCII
digits; anything else is an error, as is 64-bit overflow (`ErrRange`). -/
def atoi? (s : String) : Option ℤ :=
  let signSplit : ℤ × List Char :=
    match s.data with
    | '+' :: rest => (1, rest)
    | '-' :: rest => (-1, rest)
    | l => (1, l)
  if signSplit.2 ≠ [] ∧ signSplit.2.all Char.isDigit then
    let v : ℤ := signSplit.1 * (digitsVal signSplit.2 : ℤ)
    if -(2 ^ 63) ≤ v ∧ v ≤ 2 ^ 63 - 1 then some v else none
  else none

/-- Go's `int(v)` conversion of a float64: truncation toward zero, applied to
the exact rational value of the float. -/
def truncRat (q : ℚ) : ℤ := q.num.tdiv q.den

/-- The type switch inside `getInt`: `float64` values truncate, `int` values
pass through, `string` values go through `strconv.Atoi`; every other dynamic
type is skipped (the loop moves on to the next candidate key). -/
def coerceInt : JValue → Option ℤ
  | .jnum q => some (truncRat q)
  | .jint n => some n
  | .jstr s => atoi? s
  | _ => none

/-- Go `getInt(config, keys, defaultVal)`: walk the candidate keys in order and
return the first present value that coerces to an integer; when a present
value does not coerce the loop keeps going; when no key yields an integer the
caller-supplied default is returned. -/
def getInt (config : Config) (keys : List String) (defaultVal : ℤ) : ℤ :=
  match keys with
  | [] => defaultVal
  | k :: ks =>
    match config.lookup k with
    | some v =>
      match coerceInt v with
      | some n => n
      | none => getInt config ks defaultVal
    | none => getInt config ks defaultVal

/-- Candidate keys for the context length, in precedence order. -/
def modelTokenLimitKeys : List String :=
  ["max_position_embeddings", "n_ctx", "seq_length", "max_seq_len", "max_sequence_length"]

/-- Go constant `DefaultModelTokenLimit`. -/
def DefaultModelTokenLimit : ℤ := 2048

/-- Value of `ModelTokenLimit` as `ParseModelMetadata` computes it. -/
def modelTokenLimitOf (c : Config) : ℤ := getInt c modelTokenLimitKeys DefaultModelTokenLimit

/-- Local `hiddenSize` in `calculateKVCacheTokenSize`. -/
def hiddenSizeOf (c : Config) : ℤ := getInt c ["hidden_size", "n_embd", "d_model"] 0

/-- Local `hiddenLayers` in `calculateKVCacheTokenSize`. -/
def hiddenLayersOf (c : Config) : ℤ := getInt c ["num_hidden_layers", "n_layer", "n_layers"] 0

/-- Local `attentionHeads` in `calculateKVCacheTokenSize`. -/
def attentionHeadsOf (c : Config) : ℤ := getInt c ["num_attention_heads", "n_head", "n_heads"] 0

/-- Local `kvHeads` as first read from the config, before the fallback. -/
def kvHeadsRawOf (c : Config) : ℤ := getInt c ["num_key_value_heads", "n_head_kv", "n_kv_heads"] 0

/-- Local `headDim` as first read from the config, before the fallback. -/
def headDimRawOf (c : Config) : ℤ := getInt c ["head_dim"] 0

/-- Local `headDim` after the fallback `hiddenSize / attentionHeads` (Go integer
division truncates toward zero, `Int.tdiv`). -/
def headDimOf (c : Config) : ℤ :=
  if headDimRawOf c = 0 ∧ 0 < attentionHeadsOf c then
    (hiddenSizeOf c).tdiv (attentionHeadsOf c)
  else headDimRawOf c

/-- Local `kvHeads` after the fallback: when absent/zero and attention heads are
known, a true `multi_query` boolean flag forces 1, otherwise the attention
head count is used. -/
def kvHeadsOf (c : Config) : ℤ :=
  if kvHeadsRawOf c = 0 ∧ 0 < attentionHeadsOf c then
    match c.lookup "multi_query" with
    | some (.jbool true) => 1
    | _ => attentionHeadsOf c
  else kvHeadsRawOf c

/-- Local `kvLoraRank`: looked up with default sentinel `-1` meaning "absent". -/
def kvLoraRankOf (c : Config) : ℤ := getInt c ["kv_lora_rank"] (-1)

/-- Local `qkRopeHeadDim`, defaulting to 0. -/
def qkRopeHeadDimOf (c : Config) : ℤ := getInt c ["qk_rope_head_dim"] 0

/-- Local `elementsPerToken` as assigned by the branch structure of
`calculateKVCacheTokenSize`. -/
def elementsPerTokenOf (c : Config) : ℤ :=
  if kvLoraRankOf c ≠ -1 then kvLoraRankOf c + qkRopeHeadDimOf c
  else if 0 < attentionHeadsOf c ∧ 0 < kvHeadsOf c ∧ 0 < headDimOf c then
    2 * kvHeadsOf c * headDimOf c
  else 0

/-- Local `attnType` as assigned by the branch structure of
`calculateKVCacheTokenSize`. -/
def attnTypeOf (c : Config) : String :=
  if kvLoraRankOf c ≠ -1 then "MLA"
  else if 0 < attentionHeadsOf c ∧ 0 < kvHeadsOf c ∧ 0 < headDimOf c then
    if attentionHeadsOf c = kvHeadsOf c then "MHA"
    else if kvHeadsOf c = 1 then "MQA"
    else "GQA"
  else "Unknown"

/-- Go `calculateKVCacheTokenSize`: returns `(tokenSize, attnType)` where
`tokenSize = elementsPerToken * hiddenLayers * 2` (2 bytes per fp16 element). -/
def calculateKVCacheTokenSize (c : Config) : ℤ × String :=
  (elementsPerTokenOf c * hiddenLayersOf c * 2, attnTypeOf c)

/-- One row of the hub file listing (the `type` field is never consulted). -/
structure FileInfo where
  path : String
  size : ℤ
deriving DecidableEq

/-- Does `needle` occur as a contiguous substring of `hay`?  An unanchored Go
`regexp` match of a pattern `.*LIT` holds exactly when the literal `LIT`
occurs somewhere in the subject, which this computes. -/
def containsSub (needle : List Char) : List Char → Bool
  | [] => needle.isEmpty
  | c :: rest => needle.isPrefixOf (c :: rest) || containsSub needle rest

/-- Go `safetensorRegex.MatchString`, pattern `.*\.safetensors` (unanchored:
any path containing `.safetensors`). -/
def safetensorMatch (p : List Char) : Bool := containsSub ".safetensors".data p

/-- Go `binRegex.MatchString`, pattern `.*\.bin` (unanchored: any path
containing `.bin`). -/
def binMatch (p : List Char) : Bool := containsSub ".bin".data p

/-- After the end of an occurrence of `consolidated`: is there a later
occurrence of `.safetensors` with no newline in between?  (`.` in a Go regexp
does not match `\n`.) -/
def safetensorsAfter : List Char → Bool
  | [] => false
  | c :: rest =>
    ".safetensors".data.isPrefixOf (c :: rest) || (c != '\n' && safetensorsAfter rest)

/-- Go `mistralRegex.MatchString`, pattern `consolidated.*\.safetensors`,
unanchored. -/
def mistralMatch : List Char → Bool
  | [] => false
  | c :: rest =>
    ("consolidated".data.isPrefixOf (c :: rest) && safetensorsAfter (List.drop 11 rest)) ||
      mistralMatch rest

/-- Go `strings.HasSuffix p ".safetensors"`. -/
def safetensorSuffix (p : List Char) : Bool := ".safetensors".data.isSuffixOf p

/-- Go `strings.HasSuffix p ".bin"`. -/
def binSuffix (p : List Char) : Bool := ".bin".data.isSuffixOf p

/-- The format decision of `FetchModelMetadata`: load format, config format,
tokenizer mode, config file name and the selected weight files. -/
structure ClassifyResult where
  loadFormat : String
  configFormat : String
  tokenizerMode : String
  configFile : String
  selected : List FileInfo
deriving DecidableEq

/-- The file-filtering and format-detection logic of `FetchModelMetadata`
(fetching and JSON decoding abstracted away).  `none` is returned exactly when
the Go code fails with `no .safetensors or .bin files found`; the format
fields start from the `NewGenerator` defaults (`"auto"`). -/
def classifyFiles (files : List FileInfo) : Option ClassifyResult :=
  let mistralFiles := files.filter fun f => mistralMatch f.path.data
  let selectedFiles := files.filter fun f => safetensorMatch f.path.data || binMatch f.path.data
  if mistralFiles ≠ [] then
    some ⟨"mistral", "mistral", "mistral", "params.json", mistralFiles⟩
  else if selectedFiles ≠ [] then
    let hasSafetensors := selectedFiles.any fun f => safetensorSuffix f.path.data
    let sel :=
      if hasSafetensors then selectedFiles.filter fun f => safetensorSuffix f.path.data
      else selectedFiles
    some ⟨"auto", "auto", "auto", "config.json", sel⟩
  else none

/-- The byte total of the selected files (`totalBytes += f.Size`). -/
def totalBytes (files : List FileInfo) : ℤ := files.foldl (fun a f => a + f.size) 0

/-- Decimal digit characters of a natural number, most significant first: the
rendering of Go's `%d`, and of `%.0f` on an integral float. -/
def natDecimal (n : ℕ) : List Char :=
  if _h : n < 10 then [Nat.digitChar n]
  else natDecimal (n / 10) ++ [Nat.digitChar (n % 10)]
termination_by n
decreasing_by exact Nat.div_lt_self (by omega) (by omega)

/-- Decimal rendering of an integer (minus sign, then digits). -/
def intDecimal (i : ℤ) : List Char :=
  if i < 0 then '-' :: natDecimal i.natAbs else natDecimal i.toNat

/-- Decimal rendering of an integer as a `String`. -/
def intDecimalStr (i : ℤ) : String := ⟨intDecimal i⟩

/-- Parse an optionally negated decimal-integer character list.  This is the
restriction of Go's `strconv.ParseFloat` (whose error case the source ignores,
leaving the zero value) to the strings this generator actually feeds it:
renderings of integers. -/
def parseInt? : List Char → Option ℤ
  | [] => none
  | c :: cs =>
    if c = '-' then
      if cs ≠ [] ∧ cs.all Char.isDigit then some (-(digitsVal cs : ℤ)) else none
    else if (c :: cs).all Char.isDigit then some ((digitsVal (c :: cs) : ℤ))
    else none

/-- Go `strings.TrimSuffix`. -/
def trimSuffix (l suf : List Char) : List Char :=
  if suf.isSuffixOf l then l.take (l.length - suf.length) else l

/-- Ceiling of `B / 2^30` in exact integer arithmetic: the value of
`math.Ceil(float64(B) / (1024*1024*1024))`, whose float64 evaluation is exact
for every byte total below 2^53 (8 PiB). -/
def ceilGiB (B : ℤ) : ℤ := (B + (2 ^ 30 - 1)) / (2 ^ 30)

/-- String `ModelFileSize` as `FetchModelMetadata` renders it from the selected byte
total. -/
def modelFileSizeStr (B : ℤ) : String := intDecimalStr (ceilGiB B) ++ "Gi"

/-- Go constant `SystemFileDiskSizeGiB`. -/
def SystemFileDiskSizeGiB : ℤ := 50

/-- Go `calculateStorageSize`: strip the `Gi` suffix from `ModelFileSize`,
parse the number (a parse error leaves the zero value), add the 50 GiB system
overhead, and re-render with the `Gi` suffix. -/
def calculateStorageSize (modelFileSize : String) : String :=
  intDecimalStr ((parseInt? (trimSuffix modelFileSize.data "Gi".data)).getD 0 +
    SystemFileDiskSizeGiB) ++ "Gi"

/-- The `toolCallParserMap` table, in the source order of the Go literal (a Go
map is unordered; the selection code sorts the keys before use). -/
def toolCallParserMap : List (String × String) := [
  ("hermes-2", "hermes"),
  ("hermes-3", "hermes"),
  ("mistral", "mistral"),
  ("meta-llama-3", "llama3_json"),
  ("meta-llama-4", "llama4_pythonic"),
  ("granite-3", "granite"),
  ("granite-4", "hermes"),
  ("internlm", "internlm"),
  ("ai21-jamba", "jamba"),
  ("qwq-32b", "hermes"),
  ("qwen2.5", "hermes"),
  ("minimax", "minimax"),
  ("deepseek-r1", "deepseek_v3"),
  ("deepseek-v3", "deepseek_v3"),
  ("deepseek-v3.1", "deepseek_v31"),
  ("kimi_k2", "kimi_k2"),
  ("hunyuan-a13b", "hunyuan_a13b"),
  ("longcat", "longcat"),
  ("glm-4", "glm45"),
  ("qwen3", "hermes"),
  ("qwen3-coder", "qwen3_xml"),
  ("olmo-3", "olmo3")]

/-- Byte-wise lexicographic order of Go `sort.Strings`; on UTF-8 encodings it
coincides with the code-point lexicographic order on the character lists. -/
def strLe (a b : String) : Prop := a.data ≤ b.data

instance : DecidableRel strLe := fun a b => inferInstanceAs (Decidable (a.data ≤ b.data))

instance : IsTotal String strLe := ⟨fun a b => le_total a.data b.data⟩

instance : IsTrans String strLe := ⟨fun _ _ _ h₁ h₂ => le_trans h₁ h₂⟩

/-- The sorted key list of the tool-call table (`sort.Strings(prefixes)`). -/
def toolCallKeysSorted : List String :=
  List.insertionSort strLe (toolCallParserMap.map Prod.fst)

/-- The tool-call selection loop of `ParseModelMetadata`: iterate the sorted
keys and keep overwriting the field on every prefix match.  The initial value
is the empty string, the Go zero value of the field. -/
def selectToolCallParser (name : String) : String :=
  toolCallKeysSorted.foldl
    (fun acc k =>
      if k.data.isPrefixOf name.data then (toolCallParserMap.lookup k).getD "" else acc)
    ""

/-- The outcome-relevant inputs and outputs of one `fetchURL` call: given the
auth header actually attached (empty string = no header), the URL, the HTTP
status received and the decoded body, return the updated
`DownloadAuthRequired` flag (its previous value threaded through) together
with the call's result. -/
def fetchURLModel {α : Type} (auth url : String) (status : ℕ) (body : α)
    (authRequired : Bool) : Bool × Except String α :=
  let flag := if status = 401 ∨ status = 403 then true else authRequired
  if (status = 401 ∨ status = 403) ∧ auth = "" then
    (flag, .error ("authentication required for accessing " ++ url))
  else if status ≠ 200 then
    (flag, .error ("failed to fetch " ++ url ++ ": status " ++ ⟨natDecimal status⟩))
  else (flag, .ok body)

/-- A decoded HTTP body: a file listing, a configuration document, or
malformed JSON (either `json.Unmarshal` in the source failing). -/
inductive Body : Type
  | asFiles (files : List FileInfo)
  | asConfig (config : Config)
  | malformed

/-- The network, abstracted: each URL yields an HTTP status and a decoded
body. -/
abbrev Oracle := String → ℕ × Body

/-- The file-listing URL built by `FetchModelMetadata`. -/
def treeURL (repo : String) : String :=
  "https://huggingface.co/api/models/" ++ repo ++ "/tree/main?recursive=true"

/-- The config-document URL built by `FetchModelMetadata`. -/
def resolveURL (repo file : String) : String :=
  "https://huggingface.co/" ++ repo ++ "/resolve/main/" ++ file

/-- The fields of the generated `PresetParam` that the embedded pipeline
produces (fields never consulted by the specification's claims — chat
template, architectures, reasoning parser, version string — are omitted). -/
structure PresetOut where
  name : String
  modelFileSize : String
  diskStorageRequirement : String
  modelTokenLimit : ℤ
  bytesPerToken : ℤ
  attnType : String
  toolCallParser : String
  loadFormat : String
  configFormat : String
  tokenizerMode : String
  downloadAuthRequired : Bool
deriving DecidableEq

/-- The pure remainder of `Generate` once both fetches succeeded: classify the
file tree (`none` is the `no .safetensors or .bin files found` error), then
`ParseModelMetadata` and `FinalizeParams`. -/
def generateFromData (name : String) (files : List FileInfo) (config : Config)
    (authRequired : Bool) : Option PresetOut :=
  match classifyFiles files with
  | none => none
  | some cls =>
    let mfs := modelFileSizeStr (totalBytes cls.selected)
    some ⟨name, mfs, calculateStorageSize mfs, modelTokenLimitOf config,
      (calculateKVCacheTokenSize config).1, (calculateKVCacheTokenSize config).2,
      selectToolCallParser name, cls.loadFormat, cls.configFormat, cls.tokenizerMode,
      authRequired⟩

/-- Go `GeneratePreset`: the empty-repo guard, then `NewGenerator` (lowercased
last path segment as the model name, bearer header from the supplied token;
the `HF_TOKEN` environment fallback is not modelled) and the two-fetch
pipeline.  The second component of the result is the list of URLs fetched, in
order — the model's record of network access. -/
def generatePreset (oracle : Oracle) (modelRepo token : String) :
    Except String PresetOut × List String :=
  if modelRepo = "" then (.error "model repo is required", [])
  else
    let name := ((modelRepo.splitOn "/").getLastD "").toLower
    let auth := if token ≠ "" then "Bearer " ++ token else ""
    let url₁ := treeURL modelRepo
    let r₁ := oracle url₁
    match fetchURLModel auth url₁ r₁.1 r₁.2 false with
    | (_, .error e) => (.error ("error listing files: " ++ e), [url₁])
    | (flag₁, .ok (Body.asFiles files)) =>
      match classifyFiles files with
      | none => (.error "no .safetensors or .bin files found", [url₁])
      | some cls =>
        let url₂ := resolveURL modelRepo cls.configFile
        let r₂ := oracle url₂
        match fetchURLModel auth url₂ r₂.1 r₂.2 flag₁ with
        | (_, .error e) => (.error ("error fetching config: " ++ e), [url₁, url₂])
        | (flag₂, .ok (Body.asConfig config)) =>
          match generateFromData name files config flag₂ with
          | some p => (.ok p, [url₁, url₂])
          | none => (.error "no .safetensors or .bin files found", [url₁, url₂])
        | (_, .ok _) => (.error "error parsing config", [url₁, url₂])
    | (_, .ok _) => (.error "error parsing file list", [url₁])

/-- Well-formedness of a size string: the decimal rendering of an integer
followed by the `Gi` unit suffix. -/
def WellFormedGi (s : String) : Prop := ∃ n : ℤ, s = intDecimalStr n ++ "Gi"

/-- Specification-side reading of the accessor contract (claim C7): the first
candidate key whose present value coerces to an integer, else the default. -/
def firstCoercible (config : Config) (keys : List String) : Option ℤ :=
  keys.findSome? fun k => (config.lookup k).bind coerceInt

/-- Remove every binding of key `k` from a configuration document (a Go map
has unique keys, so this models deleting the field). -/
def eraseKey (k : String) (c : Config) : Config := c.filter fun p => p.1 != k

/-- A DeepSeek-style example document: `kv_lora_rank = 512`,
`qk_rope_head_dim = 64`, 61 hidden layers, and a head count that the MLA
branch must ignore. -/
def exampleMLAConfig : Config :=
  [("kv_lora_rank", JValue.jnum 512), ("qk_rope_head_dim", JValue.jnum 64),
   ("num_hidden_layers", JValue.jnum 61), ("num_attention_heads", JValue.jnum 128)]

/-- A grouped-query example document (the spec's GQA scenario). -/
def exampleGQAConfig : Config :=
  [("hidden_size", JValue.jnum 4096), ("num_attention_heads", JValue.jnum 32),
   ("num_key_value_heads", JValue.jnum 8), ("num_hidden_layers", JValue.jnum 32)]

/-- A document whose `kv_lora_rank` field is present but not coercible. -/
def exampleBoolLoraConfig : Config :=
  [("kv_lora_rank", JValue.jbool true), ("hidden_size", JValue.jnum 4096),
   ("num_attention_heads", JValue.jnum 32), ("num_key_value_heads", JValue.jnum 8),
   ("num_hidden_layers", JValue.jnum 32)]

/-- An adversarial document with a negative `kv_lora_rank`. -/
def exampleNegLoraConfig : Config :=
  [("kv_lora_rank", JValue.jnum (-3)), ("num_hidden_layers", JValue.jnum 5)]

/-- A document with none of the attention fields. -/
def exampleEmptyAttnConfig : Config := [("num_hidden_layers", JValue.jnum 2)]

/-- A one-file tree holding a single standard weight file of one byte. -/
def exampleTinyFiles : List FileInfo := [⟨"model.safetensors", 1⟩]

/-- A tree shipping the same weights in safetensors and bin form. -/
def exampleMixedFiles : List FileInfo := [⟨"model.safetensors", 3⟩, ⟨"model.bin", 5⟩]

/-- A tree with a vendor-consolidated file next to standard weight files. -/
def exampleVendorFiles : List FileInfo :=
  [⟨"consolidated-00001-of-00003.safetensors", 7⟩, ⟨"model.safetensors", 1⟩,
    ⟨"model.bin", 2⟩]

/-- The preset produced from `exampleTinyFiles` and `exampleEmptyAttnConfig`
(spelled with the same subterms `generateFromData` builds, so that the run of
the pipeline on these inputs is definitionally this record). -/
def examplePreset : PresetOut :=
  ⟨"m", modelFileSizeStr (totalBytes exampleTinyFiles),
    calculateStorageSize (modelFileSizeStr (totalBytes exampleTinyFiles)),
    modelTokenLimitOf exampleEmptyAttnConfig,
    (calculateKVCacheTokenSize exampleEmptyAttnConfig).1,
    (calculateKVCacheTokenSize exampleEmptyAttnConfig).2,
    selectToolCallParser "m", "auto", "auto", "auto", false⟩

theorem digitChar_isDigit : ∀ m : ℕ, m < 10 → (Nat.digitChar m).isDigit = true := by decide

theorem digitVal_digitChar : ∀ m : ℕ, m < 10 → digitVal (Nat.digitChar m) = m := by decide

theorem natDecimal_ne_nil (n : ℕ) : natDecimal n ≠ [] := by
  rw [natDecimal]
  split
  · simp
  · simp

theorem natDecimal_all_digits (n : ℕ) : (natDecimal n).all Char.isDigit = true := by
  induction n using Nat.strong_induction_on with
  | _ n ih =>
    rw [natDecimal]
    split
    · next h => simp [digitChar_isDigit n h]
    · next h =>
      rw [List.all_append]
      have h₁ := ih (n / 10) (Nat.div_lt_self (by omega) (by omega))
      have h₂ := digitChar_isDigit (n % 10) (Nat.mod_lt _ (by omega))
      simp [h₁, h₂]

theorem digitsVal_concat (l : List Char) (c : Char) :
    digitsVal (l ++ [c]) = 10 * digitsVal l + digitVal c := by
  unfold digitsVal
  rw [List.foldl_concat]

theorem digitsVal_natDecimal (n : ℕ) : digitsVal (natDecimal n) = n := by
  induction n using Nat.strong_induction_on with
  | _ n ih =>
    rw [natDecimal]
    split
    · next h =>
      simp [digitsVal, digitVal_digitChar n h]
    · next h =>
      rw [digitsVal_concat, ih (n / 10) (Nat.div_lt_self (by omega) (by omega)),
        digitVal_digitChar (n % 10) (Nat.mod_lt _ (by omega))]
      omega

theorem parseInt?_digits (l : List Char) (hne : l ≠ [])
    (hd : l.all Char.isDigit = true) : parseInt? l = some ((digitsVal l : ℤ)) := by
  cases l with
  | nil => exact absurd rfl hne
  | cons c cs =>
    have hc : c.isDigit = true := by
      have := hd
      simp [List.all_cons] at this
      exact this.1
    have hne' : c ≠ '-' := by
      intro hEq
      rw [hEq] at hc
      simp [Char.isDigit] at hc
    rw [parseInt?, if_neg hne', if_pos hd]

theorem parseInt?_intDecimal (i : ℤ) : parseInt? (intDecimal i) = some i := by
  unfold intDecimal
  split
  · next h =>
    rw [parseInt?, if_pos rfl, if_pos ⟨natDecimal_ne_nil _, natDecimal_all_digits _⟩,
      digitsVal_natDecimal]
    congr 1
    omega
  · next h =>
    rw [parseInt?_digits _ (natDecimal_ne_nil _) (natDecimal_all_digits _),
      digitsVal_natDecimal]
    congr 1
    omega

theorem trimSuffix_append (l suf : List Char) : trimSuffix (l ++ suf) suf = l := by
  unfold trimSuffix
  rw [if_pos (List.isSuffixOf_iff_suffix.2 (List.suffix_append l suf))]
  have hlen : (l ++ suf).length - suf.length = l.length := by
    simp [List.length_append]
  rw [hlen, List.take_left]

theorem data_append_Gi (l : List Char) : ((⟨l⟩ : String) ++ "Gi").data = l ++ "Gi".data :=
  String.data_append _ _

theorem calculateStorageSize_render (n : ℤ) :
    calculateStorageSize (intDecimalStr n ++ "Gi") =
      intDecimalStr (n + 50) ++ "Gi" := by
  unfold calculateStorageSize intDecimalStr
  rw [data_append_Gi, trimSuffix_append, parseInt?_intDecimal]
  rfl

theorem ceilGiB_eq_ceil (B : ℤ) : ceilGiB B = ⌈(B : ℚ) / 2 ^ 30⌉ := by
  have hne : ((2 : ℤ) ^ 30) ≠ 0 := by norm_num
  have hq : ((2 : ℚ) ^ 30) = (((2 : ℤ) ^ 30 : ℤ) : ℚ) := by push_cast; ring
  have hmod := Int.ediv_add_emod (B + (2 ^ 30 - 1)) (2 ^ 30)
  have hlo := Int.emod_nonneg (B + (2 ^ 30 - 1)) hne
  have hhi := Int.emod_lt_of_pos (B + (2 ^ 30 - 1)) (b := 2 ^ 30) (by norm_num)
  symm
  rw [Int.ceil_eq_iff]
  constructor
  · rw [hq, lt_div_iff₀ (by positivity)]
    have : (ceilGiB B - 1) * 2 ^ 30 < B := by
      unfold ceilGiB
      omega
    exact_mod_cast this
  · rw [hq, div_le_iff₀ (by positivity)]
    have : B ≤ ceilGiB B * 2 ^ 30 := by
      unfold ceilGiB
      omega
    exact_mod_cast this

/-- C2: for every non-negative byte total `B`, `ModelFileSize` is rendered as
`ceil(B / 2^30)` followed by `Gi`, and `calculateStorageSize` turns it into
`ceil(B / 2^30) + 50` followed by `Gi`; in particular `B = 8*2^30 + 1` yields
`"9Gi"` and `"59Gi"`. -/
theorem C2_size_and_storage_strings (B : ℤ) (_hB : 0 ≤ B) :
    modelFileSizeStr B = intDecimalStr ⌈(B : ℚ) / 2 ^ 30⌉ ++ "Gi" ∧
    calculateStorageSize (modelFileSizeStr B) =
      intDecimalStr (⌈(B : ℚ) / 2 ^ 30⌉ + 50) ++ "Gi" ∧
    modelFileSizeStr (8 * 2 ^ 30 + 1) = "9Gi" ∧
    calculateStorageSize (modelFileSizeStr (8 * 2 ^ 30 + 1)) = "59Gi" := by
  refine ⟨by rw [modelFileSizeStr, ceilGiB_eq_ceil], ?_, ?_, ?_⟩
  · rw [modelFileSizeStr, calculateStorageSize_render, ceilGiB_eq_ceil]
  · have h9 : ceilGiB (8 * 2 ^ 30 + 1) = 9 := by decide
    rw [modelFileSizeStr, h9]
    simp [intDecimalStr, intDecimal, natDecimal]
    rfl
  · have h9 : ceilGiB (8 * 2 ^ 30 + 1) = 9 := by decide
    rw [modelFileSizeStr, h9, calculateStorageSize_render]
    simp [intDecimalStr, intDecimal, natDecimal]
    rfl

/-- Witness for C2 at `B = 8*2^30 + 1`. -/
theorem C2_size_and_storage_strings_witness :
    (0 : ℤ) ≤ 8 * 2 ^ 30 + 1 ∧
      modelFileSizeStr (8 * 2 ^ 30 + 1) = "9Gi" ∧
      calculateStorageSize (modelFileSizeStr (8 * 2 ^ 30 + 1)) = "59Gi" :=
  ⟨by norm_num, (C2_size_and_storage_strings (8 * 2 ^ 30 + 1) (by norm_num)).2.2.1,
    (C2_size_and_storage_strings (8 * 2 ^ 30 + 1) (by norm_num)).2.2.2⟩

/-- C1: the attention analyzer follows the specified decision order: a present
`kv_lora_rank` (any coerced value other than the `-1` sentinel) classifies MLA
with `elementsPerToken = kvLoraRank + qkRopeHeadDim`, with priority over the
head-counting branch whatever the head fields hold; otherwise positive
attention heads, KV heads and head dimension give
`elementsPerToken = 2 * kvHeads * headDim` with MHA / MQA / GQA decided by the
head counts; and in every case the byte size is
`elementsPerToken * hiddenLayers * 2`. -/
theorem C1_attention_decision_order (c : Config) :
    (kvLoraRankOf c ≠ -1 →
      (calculateKVCacheTokenSize c).2 = "MLA" ∧
        elementsPerTokenOf c = kvLoraRankOf c + qkRopeHeadDimOf c) ∧
    (kvLoraRankOf c = -1 →
      0 < attentionHeadsOf c → 0 < kvHeadsOf c → 0 < headDimOf c →
      elementsPerTokenOf c = 2 * kvHeadsOf c * headDimOf c ∧
        (calculateKVCacheTokenSize c).2 =
          (if attentionHeadsOf c = kvHeadsOf c then "MHA"
           else if kvHeadsOf c = 1 then "MQA" else "GQA")) ∧
    (calculateKVCacheTokenSize c).1 = elementsPerTokenOf c * hiddenLayersOf c * 2 := by
  refine ⟨fun h => ⟨?_, ?_⟩, fun h h₁ h₂ h₃ => ⟨?_, ?_⟩, rfl⟩
  · show attnTypeOf c = "MLA"
    rw [attnTypeOf, if_pos h]
  · rw [elementsPerTokenOf, if_pos h]
  · rw [elementsPerTokenOf, if_neg (by simp [h]), if_pos ⟨h₁, h₂, h₃⟩]
  · show attnTypeOf c = _
    rw [attnTypeOf, if_neg (by simp [h]), if_pos ⟨h₁, h₂, h₃⟩]

/-- Witness for C1: the DeepSeek-style example takes the MLA branch even
though `num_attention_heads` is present, and the GQA example classifies GQA. -/
theorem C1_attention_decision_order_witness :
    (kvLoraRankOf exampleMLAConfig ≠ -1 ∧
      ((calculateKVCacheTokenSize exampleMLAConfig).2 = "MLA" ∧
        elementsPerTokenOf exampleMLAConfig =
          kvLoraRankOf exampleMLAConfig + qkRopeHeadDimOf exampleMLAConfig)) ∧
    (kvLoraRankOf exampleGQAConfig = -1 ∧
      (elementsPerTokenOf exampleGQAConfig =
          2 * kvHeadsOf exampleGQAConfig * headDimOf exampleGQAConfig ∧
        (calculateKVCacheTokenSize exampleGQAConfig).2 =
          (if attentionHeadsOf exampleGQAConfig = kvHeadsOf exampleGQAConfig then "MHA"
           else if kvHeadsOf exampleGQAConfig = 1 then "MQA" else "GQA"))) :=
  ⟨⟨by decide, (C1_attention_decision_order exampleMLAConfig).1 (by decide)⟩,
    ⟨by decide, (C1_attention_decision_order exampleGQAConfig).2.1 (by decide) (by decide)
      (by decide) (by decide)⟩⟩

/-- C8: with an empty model-repository string, `GeneratePreset` fails with the
configuration error, returns no preset, and fetches no URL. -/
theorem C8_empty_repo_rejected (oracle : Oracle) (token : String) :
    generatePreset oracle "" token = (Except.error "model repo is required", []) := rfl

/-- C6 as stated is false: a 401 response sets `DownloadAuthRequired` even
when a bearer token was attached, so the flag is not set "only when a fetch
that attached no credential" is rejected. -/
theorem C6_counterexample :
    (fetchURLModel "Bearer tok" "https://x" 401 () false).1 = true ∧
      ("Bearer tok" : String) ≠ "" := by
  constructor
  · rfl
  · decide

/-- C6 amended: `DownloadAuthRequired` is set on every 401/403 response,
token or not; with no token attached the call fails with the
authentication-required error, with a token it fails with the ordinary
status-coded error; any other non-200 status fails with the status-coded
error naming the URL and leaves the flag unchanged, and a 200 leaves the flag
unchanged and returns the body. -/
theorem C6_auth_flag_amended {α : Type} (auth url : String) (status : ℕ) (body : α)
    (flag : Bool) :
    ((fetchURLModel auth url status body flag).1 =
      ((status = 401 ∨ status = 403) ∨ flag = true)) ∧
    ((status = 401 ∨ status = 403) → auth = "" →
      (fetchURLModel auth url status body flag).2 =
        Except.error ("authentication required for accessing " ++ url)) ∧
    ((status = 401 ∨ status = 403) → auth ≠ "" →
      (fetchURLModel auth url status body flag).2 =
        Except.error ("failed to fetch " ++ url ++ ": status " ++ ⟨natDecimal status⟩)) ∧
    (¬(status = 401 ∨ status = 403) → status ≠ 200 →
      (fetchURLModel auth url status body flag).2 =
        Except.error ("failed to fetch " ++ url ++ ": status " ++ ⟨natDecimal status⟩) ∧
      (fetchURLModel auth url status body flag).1 = flag) ∧
    (status = 200 →
      (fetchURLModel auth url status body flag).2 = Except.ok body ∧
      (fetchURLModel auth url status body flag).1 = flag) := by
  unfold fetchURLModel
  by_cases h4 : status = 401 ∨ status = 403
  · have h200 : status ≠ 200 := by rcases h4 with h | h <;> omega
    by_cases ha : auth = ""
    · simp [h4, ha, h200]
    · simp [h4, ha, h200]
  · by_cases h200 : status = 200
    · simp [h4, h200]
    · simp [h4, h200]

/-- Witness for C6 amended: an unauthenticated 403 sets the flag and fails
with the authentication-required error. -/
theorem C6_auth_flag_amended_witness :
    (fetchURLModel "" "https://x" 403 () false).2 =
      Except.error ("authentication required for accessing " ++ "https://x") ∧
    (fetchURLModel "" "https://x" 403 () false).1 = true :=
  ⟨(C6_auth_flag_amended "" "https://x" 403 () false).2.1 (Or.inr rfl) rfl, by decide⟩

theorem firstCoercible_getD (config : Config) (keys : List String) (d : ℤ) :
    getInt config keys d = (firstCoercible config keys).getD d := by
  induction keys with
  | nil => rfl
  | cons k ks ih =>
    cases hl : config.lookup k with
    | none => simp [getInt, firstCoercible, List.findSome?_cons, hl, ih]
    | some v =>
      cases hc : coerceInt v with
      | none => simp [getInt, firstCoercible, List.findSome?_cons, hl, hc, ih]
      | some n => simp [getInt, firstCoercible, List.findSome?_cons, hl, hc]

/-- C7: the integer accessor returns the first candidate key whose present
value coerces to an integer (float64 truncation, Go `int` identity, numeric
strings through `Atoi`), else the caller-supplied default, and
`ModelTokenLimit` is read through the documented five-key chain with
default 2048. -/
theorem C7_getInt_contract :
    (∀ (config : Config) (keys : List String) (d : ℤ),
      getInt config keys d = (firstCoercible config keys).getD d) ∧
    (∀ q : ℚ, coerceInt (JValue.jnum q) = some (truncRat q)) ∧
    (∀ n : ℤ, coerceInt (JValue.jint n) = some n) ∧
    (∀ s : String, coerceInt (JValue.jstr s) = atoi? s) ∧
    (∀ config : Config,
      modelTokenLimitOf config =
        getInt config ["max_position_embeddings", "n_ctx", "seq_length", "max_seq_len",
          "max_sequence_length"] 2048) :=
  ⟨firstCoercible_getD, fun _ => rfl, fun _ => rfl, fun _ => rfl, fun _ => rfl⟩

theorem lookup_eraseKey_ne (c : Config) (k k' : String) (h : k ≠ k') :
    (eraseKey k' c).lookup k = c.lookup k := by
  induction c with
  | nil => rfl
  | cons p rest ih =>
    obtain ⟨a, v⟩ := p
    by_cases hp : a = k'
    · subst hp
      have hak : (k == a) = false := by simp [h]
      simp [eraseKey, List.filter_cons, List.lookup, hak]
      simpa [eraseKey] using ih
    · have hkeep : (a != k') = true := by simp [hp]
      by_cases hk : k = a
      · subst hk
        simp [eraseKey, List.filter_cons, hkeep, List.lookup]
      · have hak : (k == a) = false := by simp [hk]
        simp [eraseKey, List.filter_cons, hkeep, List.lookup, hak]
        simpa [eraseKey] using ih

theorem lookup_eraseKey_self (c : Config) (k' : String) :
    (eraseKey k' c).lookup k' = none := by
  induction c with
  | nil => rfl
  | cons p rest ih =>
    obtain ⟨a, v⟩ := p
    by_cases hp : a = k'
    · subst hp
      simp [eraseKey, List.filter_cons]
      simpa [eraseKey] using ih
    · have hkeep : (a != k') = true := by simp [hp]
      have hne : k' ≠ a := fun hEq => hp hEq.symm
      have hak : (k' == a) = false := by simp [hne]
      simp [eraseKey, List.filter_cons, hkeep, List.lookup, hak]
      simpa [eraseKey] using ih

theorem getInt_eraseKey (c : Config) (k' : String) (keys : List String) (d : ℤ)
    (h : ∀ k ∈ keys, k ≠ k') :
    getInt (eraseKey k' c) keys d = getInt c keys d := by
  induction keys with
  | nil => rfl
  | cons k ks ih =>
    have hk : k ≠ k' := h k (List.mem_cons_self k ks)
    have htail := ih fun q hq => h q (List.mem_cons_of_mem _ hq)
    cases hl : c.lookup k with
    | none => simp [getInt, lookup_eraseKey_ne c k k' hk, hl, htail]
    | some v =>
      cases hc : coerceInt v with
      | none => simp [getInt, lookup_eraseKey_ne c k k' hk, hl, hc, htail]
      | some n => simp [getInt, lookup_eraseKey_ne c k k' hk, hl, hc]

theorem calcKV_eraseKey_lora (c : Config) (hcl : kvLoraRankOf c = -1) :
    calculateKVCacheTokenSize (eraseKey "kv_lora_rank" c) = calculateKVCacheTokenSize c := by
  have hhs : hiddenSizeOf (eraseKey "kv_lora_rank" c) = hiddenSizeOf c :=
    getInt_eraseKey c _ _ _ (by decide)
  have hhl : hiddenLayersOf (eraseKey "kv_lora_rank" c) = hiddenLayersOf c :=
    getInt_eraseKey c _ _ _ (by decide)
  have hah : attentionHeadsOf (eraseKey "kv_lora_rank" c) = attentionHeadsOf c :=
    getInt_eraseKey c _ _ _ (by decide)
  have hkvr : kvHeadsRawOf (eraseKey "kv_lora_rank" c) = kvHeadsRawOf c :=
    getInt_eraseKey c _ _ _ (by decide)
  have hhdr : headDimRawOf (eraseKey "kv_lora_rank" c) = headDimRawOf c :=
    getInt_eraseKey c _ _ _ (by decide)
  have hqk : qkRopeHeadDimOf (eraseKey "kv_lora_rank" c) = qkRopeHeadDimOf c :=
    getInt_eraseKey c _ _ _ (by decide)
  have hmq : (eraseKey "kv_lora_rank" c).lookup "multi_query" = c.lookup "multi_query" :=
    lookup_eraseKey_ne c _ _ (by decide)
  have hlora : kvLoraRankOf (eraseKey "kv_lora_rank" c) = -1 := by
    unfold kvLoraRankOf
    rw [getInt]
    rw [lookup_eraseKey_self c "kv_lora_rank"]
    rfl
  have hhd : headDimOf (eraseKey "kv_lora_rank" c) = headDimOf c := by
    unfold headDimOf
    rw [hhs, hah, hhdr]
  have hkv : kvHeadsOf (eraseKey "kv_lora_rank" c) = kvHeadsOf c := by
    unfold kvHeadsOf
    rw [hkvr, hah, hmq]
  unfold calculateKVCacheTokenSize elementsPerTokenOf attnTypeOf
  rw [hhl, hah, hkv, hhd, hlora, hcl]
  simp

/-- C10: a `kv_lora_rank` field whose value coerces to exactly `-1`, or does
not coerce to an integer at all, is indistinguishable from an absent field:
the analyzer behaves exactly as on the document with the field removed, and in
particular never classifies MLA. -/
theorem C10_lora_sentinel_collision (c : Config) (v : JValue)
    (hl : c.lookup "kv_lora_rank" = some v)
    (hv : coerceInt v = some (-1) ∨ coerceInt v = none) :
    kvLoraRankOf c = -1 ∧
    calculateKVCacheTokenSize c = calculateKVCacheTokenSize (eraseKey "kv_lora_rank" c) ∧
    (calculateKVCacheTokenSize c).2 ≠ "MLA" := by
  have hk : kvLoraRankOf c = -1 := by
    unfold kvLoraRankOf
    rcases hv with h | h <;> simp [getInt, hl, h]
  refine ⟨hk, (calcKV_eraseKey_lora c hk).symm, ?_⟩
  show attnTypeOf c ≠ "MLA"
  unfold attnTypeOf
  rw [if_neg (by simp [hk])]
  split_ifs <;> decide

/-- Witness for C10: a boolean-valued `kv_lora_rank` field is skipped by the
accessor and the analyzer falls through to the head-counting branch (here
GQA). -/
theorem C10_lora_sentinel_collision_witness :
    (kvLoraRankOf exampleBoolLoraConfig = -1 ∧
      calculateKVCacheTokenSize exampleBoolLoraConfig =
        calculateKVCacheTokenSize (eraseKey "kv_lora_rank" exampleBoolLoraConfig) ∧
      (calculateKVCacheTokenSize exampleBoolLoraConfig).2 ≠ "MLA") ∧
    (calculateKVCacheTokenSize exampleBoolLoraConfig).2 = "GQA" :=
  ⟨C10_lora_sentinel_collision exampleBoolLoraConfig (JValue.jbool true) (by decide)
    (Or.inr rfl), by decide⟩

theorem containsSub_iff_infix (n : List Char) : ∀ l : List Char,
    containsSub n l = true ↔ n <:+: l := by
  intro l
  induction l with
  | nil => simp [containsSub, List.isEmpty_iff, List.infix_nil]
  | cons c rest ih =>
    simp only [containsSub, Bool.or_eq_true, List.isPrefixOf_iff_prefix, ih,
      List.infix_cons_iff]

theorem suffix_safetensor_match (p : List Char) (h : safetensorSuffix p = true) :
    safetensorMatch p = true := by
  rw [safetensorMatch, containsSub_iff_infix]
  exact (List.isSuffixOf_iff_suffix.1 h).isInfix

theorem safetensor_not_bin (p : List Char) (h : safetensorSuffix p = true) :
    binSuffix p = false := by
  by_contra hb
  rw [Bool.not_eq_false] at hb
  have h₁ : ".safetensors".data <:+ p := List.isSuffixOf_iff_suffix.1 h
  have h₂ : ".bin".data <:+ p := List.isSuffixOf_iff_suffix.1 hb
  rcases List.suffix_or_suffix_of_suffix h₂ h₁ with hs | hs
  · exact absurd (List.isSuffixOf_iff_suffix.2 hs) (by decide)
  · exact absurd (List.isSuffixOf_iff_suffix.2 hs) (by decide)

/-- C3: a tree with safetensors files and bin files (and nothing matching the
vendor pattern) is narrowed to the safetensors files only, so no selected file
is a `.bin` file and the byte total behind `ModelFileSize` excludes every
`.bin` file. -/
theorem C3_safetensors_exclude_bin (files : List FileInfo)
    (hnomistral : ∀ f ∈ files, mistralMatch f.path.data = false)
    (hsafe : ∃ f ∈ files, safetensorSuffix f.path.data = true)
    (_hbin : ∃ f ∈ files, binSuffix f.path.data = true) :
    classifyFiles files =
      some ⟨"auto", "auto", "auto", "config.json",
        files.filter fun f => safetensorSuffix f.path.data⟩ ∧
    (∀ f ∈ files.filter (fun f => safetensorSuffix f.path.data),
      binSuffix f.path.data = false) := by
  have hM : files.filter (fun f => mistralMatch f.path.data) = [] :=
    List.filter_eq_nil_iff.2 fun f hf => by simp [hnomistral f hf]
  obtain ⟨f₀, hf₀, hs₀⟩ := hsafe
  have hsel : f₀ ∈ files.filter fun f => safetensorMatch f.path.data || binMatch f.path.data :=
    List.mem_filter.2 ⟨hf₀, by simp [suffix_safetensor_match _ hs₀]⟩
  have hSne :
      (files.filter fun f => safetensorMatch f.path.data || binMatch f.path.data) ≠ [] :=
    List.ne_nil_of_mem hsel
  have hHas :
      ((files.filter fun f => safetensorMatch f.path.data || binMatch f.path.data).any
        fun f => safetensorSuffix f.path.data) = true :=
    List.any_eq_true.2 ⟨f₀, hsel, hs₀⟩
  have hff :
      ((files.filter fun f => safetensorMatch f.path.data || binMatch f.path.data).filter
        fun f => safetensorSuffix f.path.data) =
        files.filter fun f => safetensorSuffix f.path.data := by
    rw [List.filter_filter]
    refine List.filter_congr fun f _ => ?_
    by_cases h : safetensorSuffix f.path.data = true
    · simp [h, suffix_safetensor_match _ h]
    · simp [h]
  refine ⟨?_, fun f hf =>
    safetensor_not_bin f.path.data (by simpa using List.of_mem_filter hf)⟩
  simp only [classifyFiles, hM, hHas, hff, ne_eq, not_true_eq_false, if_false,
    reduceIte]
  rw [if_pos hSne]

/-- Witness for C3 on a two-file tree shipping both formats. -/
theorem C3_safetensors_exclude_bin_witness :
    classifyFiles exampleMixedFiles =
      some ⟨"auto", "auto", "auto", "config.json",
        exampleMixedFiles.filter fun f => safetensorSuffix f.path.data⟩ ∧
    (∀ f ∈ exampleMixedFiles.filter (fun f => safetensorSuffix f.path.data),
      binSuffix f.path.data = false) :=
  C3_safetensors_exclude_bin exampleMixedFiles (by decide)
    ⟨⟨"model.safetensors", 3⟩, by decide⟩ ⟨⟨"model.bin", 5⟩, by decide⟩

/-- C4: any file matching the vendor-consolidated pattern forces the vendor
format triple, the `params.json` config file, and a selected set of exactly
the vendor-consolidated files, whatever other weight files are present. -/
theorem C4_vendor_consolidated_priority (files : List FileInfo)
    (hm : ∃ f ∈ files, mistralMatch f.path.data = true) :
    classifyFiles files =
      some ⟨"mistral", "mistral", "mistral", "params.json",
        files.filter fun f => mistralMatch f.path.data⟩ := by
  obtain ⟨f₀, hf₀, hm₀⟩ := hm
  have hMne : (files.filter fun f => mistralMatch f.path.data) ≠ [] :=
    List.ne_nil_of_mem (List.mem_filter.2 ⟨hf₀, hm₀⟩)
  simp only [classifyFiles]
  rw [if_pos hMne]

/-- Witness for C4 on a tree holding a consolidated file next to standard
safetensors and bin files. -/
theorem C4_vendor_consolidated_priority_witness :
    classifyFiles exampleVendorFiles =
      some ⟨"mistral", "mistral", "mistral", "params.json",
        exampleVendorFiles.filter fun f => mistralMatch f.path.data⟩ :=
  C4_vendor_consolidated_priority exampleVendorFiles
    ⟨⟨"consolidated-00001-of-00003.safetensors", 7⟩, by decide⟩

theorem selectFold_eq_getLast (name : String) (keys : List String) (init : String) :
    (keys.foldl
      (fun acc k =>
        if k.data.isPrefixOf name.data then (toolCallParserMap.lookup k).getD "" else acc)
      init) =
      (match (keys.filter fun k => k.data.isPrefixOf name.data).getLast? with
      | some k => (toolCallParserMap.lookup k).getD ""
      | none => init) := by
  induction keys generalizing init with
  | nil => rfl
  | cons k ks ih =>
    rw [List.foldl_cons, ih]
    by_cases h : k.data.isPrefixOf name.data = true
    · rw [@List.filter_cons_of_pos String (fun k => k.data.isPrefixOf name.data) k ks h,
        if_pos h]
      cases hl : (ks.filter fun k => k.data.isPrefixOf name.data).getLast? with
      | none =>
        have hnil : (ks.filter fun k => k.data.isPrefixOf name.data) = [] := by
          rwa [List.getLast?_eq_none_iff] at hl
        rw [hnil, List.getLast?_singleton]
      | some k' =>
        have hcons : (k :: (ks.filter fun k => k.data.isPrefixOf name.data)).getLast? =
            some k' := by
          rw [List.getLast?_cons, hl]
          rfl
        rw [hcons]
    · rw [@List.filter_cons_of_neg String (fun k => k.data.isPrefixOf name.data) k ks h,
        if_neg h]

theorem sorted_le_getLast : ∀ (l : List String), l.Pairwise strLe →
    ∀ x ∈ l, ∀ hne : l ≠ [], strLe x (l.getLast hne) := by
  intro l
  induction l with
  | nil => intro _ x hx; cases hx
  | cons a rest ih =>
    intro hp x hx hne
    rw [List.mem_cons] at hx
    rcases hx with rfl | hx'
    · cases rest with
      | nil => exact le_refl x.data
      | cons b bs =>
        rw [List.getLast_cons (by simp)]
        exact (List.pairwise_cons.1 hp).1 _ (List.getLast_mem (by simp))
    · cases rest with
      | nil => cases hx'
      | cons b bs =>
        rw [List.getLast_cons (by simp)]
        exact ih (List.pairwise_cons.1 hp).2 x hx' (by simp)

/-- C5: the tool-call selection sorts the table's prefixes and keeps
overwriting on every match, so the lexicographically greatest matching prefix
determines the result. -/
theorem C5_toolcall_last_sorted_match (name p : String)
    (hmem : p ∈ toolCallParserMap.map Prod.fst)
    (hmatch : p.data.isPrefixOf name.data = true)
    (hmax : ∀ q ∈ toolCallParserMap.map Prod.fst,
      q.data.isPrefixOf name.data = true → q.data ≤ p.data) :
    selectToolCallParser name = (toolCallParserMap.lookup p).getD "" := by
  have hperm : toolCallKeysSorted.Perm (toolCallParserMap.map Prod.fst) :=
    List.perm_insertionSort _ _
  have hmem' : p ∈ toolCallKeysSorted := hperm.mem_iff.2 hmem
  have hsorted : toolCallKeysSorted.Pairwise strLe := List.sorted_insertionSort strLe _
  unfold selectToolCallParser
  rw [selectFold_eq_getLast]
  have hpf : p ∈ toolCallKeysSorted.filter fun k => k.data.isPrefixOf name.data :=
    List.mem_filter.2 ⟨hmem', hmatch⟩
  have hfne : (toolCallKeysSorted.filter fun k => k.data.isPrefixOf name.data) ≠ [] :=
    List.ne_nil_of_mem hpf
  rw [List.getLast?_eq_getLast _ hfne]
  have hgmem := List.getLast_mem hfne
  have h1 : strLe p ((toolCallKeysSorted.filter fun k => k.data.isPrefixOf name.data).getLast
      hfne) :=
    sorted_le_getLast _ (hsorted.filter _) p hpf hfne
  have hgmatch :
      ((toolCallKeysSorted.filter fun k => k.data.isPrefixOf name.data).getLast
        hfne).data.isPrefixOf name.data = true :=
    @List.of_mem_filter String (fun k => k.data.isPrefixOf name.data) _ _ hgmem
  have hgin :
      ((toolCallKeysSorted.filter fun k => k.data.isPrefixOf name.data).getLast hfne) ∈
        toolCallKeysSorted :=
    @List.mem_of_mem_filter String (fun k => k.data.isPrefixOf name.data) _ _ hgmem
  have h2 :
      ((toolCallKeysSorted.filter fun k => k.data.isPrefixOf name.data).getLast
        hfne).data ≤ p.data :=
    hmax _ (hperm.mem_iff.1 hgin) hgmatch
  have heq :
      (toolCallKeysSorted.filter fun k => k.data.isPrefixOf name.data).getLast hfne = p := by
    have hdata :
        ((toolCallKeysSorted.filter fun k => k.data.isPrefixOf name.data).getLast
          hfne).data = p.data := le_antisymm h2 h1
    cases hgl :
        (toolCallKeysSorted.filter fun k => k.data.isPrefixOf name.data).getLast hfne with
    | mk gd =>
      cases p with
      | mk pd =>
        rw [hgl] at hdata
        exact congrArg String.mk hdata
  rw [heq]

/-- Witness for C5: `qwen3-coder-30b-a3b-instruct` matches both `qwen3` and
`qwen3-coder`; the later-sorted `qwen3-coder` wins and yields `qwen3_xml`,
not the `qwen3` entry's `hermes`. -/
theorem C5_toolcall_last_sorted_match_witness :
    selectToolCallParser "qwen3-coder-30b-a3b-instruct" = "qwen3_xml" ∧
      ("qwen3_xml" : String) ≠ "hermes" := by
  constructor
  · have h := C5_toolcall_last_sorted_match "qwen3-coder-30b-a3b-instruct" "qwen3-coder"
      (by decide) (by decide) (by decide)
    rw [h]
    decide
  · decide

/-- C9 as stated is false: `BytesPerToken` can be negative.  An accepted run
over a one-file tree and a document with `kv_lora_rank = -3` and 5 hidden
layers produces `BytesPerToken = (-3 + 0) * 5 * 2 = -30 < 0`. -/
theorem C9_counterexample :
    (generateFromData "m" exampleTinyFiles exampleNegLoraConfig false).map
        PresetOut.bytesPerToken = some (-30) ∧ (-30 : ℤ) < 0 := by
  constructor
  · rfl
  · norm_num

/-- C9 amended: on every accepted generation the size strings are well-formed
`<integer>Gi` renderings and `AttnType` defaults to `Unknown` on insufficient
fields, unconditionally; `BytesPerToken ≥ 0` holds provided the coerced
hidden-layer count is non-negative and, when the MLA branch fires, the coerced
`kv_lora_rank + qk_rope_head_dim` is non-negative. -/
theorem C9_invariants_amended (name : String) (files : List FileInfo) (config : Config)
    (flag : Bool) (p : PresetOut)
    (hsucc : generateFromData name files config flag = some p) :
    WellFormedGi p.modelFileSize ∧ WellFormedGi p.diskStorageRequirement ∧
    (0 ≤ hiddenLayersOf config →
      (kvLoraRankOf config ≠ -1 → 0 ≤ kvLoraRankOf config + qkRopeHeadDimOf config) →
      0 ≤ p.bytesPerToken) ∧
    (kvLoraRankOf config = -1 →
      ¬(0 < attentionHeadsOf config ∧ 0 < kvHeadsOf config ∧ 0 < headDimOf config) →
      p.attnType = "Unknown") := by
  unfold generateFromData at hsucc
  cases hcls : classifyFiles files with
  | none =>
    rw [hcls] at hsucc
    exact absurd hsucc (by simp)
  | some cls =>
    rw [hcls] at hsucc
    obtain rfl := (Option.some.inj hsucc).symm
    refine ⟨⟨ceilGiB (totalBytes cls.selected), rfl⟩,
      ⟨ceilGiB (totalBytes cls.selected) + 50, calculateStorageSize_render _⟩, ?_, ?_⟩
    · intro h₁ h₂
      show 0 ≤ elementsPerTokenOf config * hiddenLayersOf config * 2
      have he : 0 ≤ elementsPerTokenOf config := by
        unfold elementsPerTokenOf
        split
        · next hlr => exact h₂ hlr
        · split
          · next hh => exact le_of_lt (mul_pos (mul_pos two_pos hh.2.1) hh.2.2)
          · exact le_refl 0
      exact mul_nonneg (mul_nonneg he h₁) (by norm_num)
    · intro h₁ h₂
      show attnTypeOf config = "Unknown"
      unfold attnTypeOf
      rw [if_neg (by simp [h₁]), if_neg h₂]

/-- Witness for C9 amended: the one-byte tree with a layers-only document
yields well-formed size strings, a non-negative byte size, and the `Unknown`
classification. -/
theorem C9_invariants_amended_witness :
    WellFormedGi examplePreset.modelFileSize ∧
    WellFormedGi examplePreset.diskStorageRequirement ∧
    0 ≤ examplePreset.bytesPerToken ∧
    examplePreset.attnType = "Unknown" := by
  have h := C9_invariants_amended "m" exampleTinyFiles exampleEmptyAttnConfig false
    examplePreset rfl
  exact ⟨h.1, h.2.1, h.2.2.1 (by decide) (by decide), h.2.2.2 (by decide) (by decide)⟩
